import Mathlib

/-!
Verification of the taxi-analytics batch transform-and-load pipeline
(`src/taxi_python/uploader.py`).

Shallow embedding conventions:
* Numeric column values are modelled as `ℚ` (pandas float64/float32 narrowing
  is the identity here; none of the verified properties depends on rounding).
* A pandas cell that may be `NaN`/missing before a `fillna` is modelled as an
  `Option` value; `fillna d` is `Option.getD d`.
* Timestamps are modelled as seconds (`ℚ`); `total_seconds() / 60` becomes
  division by 60.  Calendar-derived columns (`pickup_hour`, `pickup_day_of_week`,
  `pickup_date`) and destination-only columns that no verified claim mentions
  (location ids, surcharges, payment type, float narrowing of tolls etc.) are
  outside the scope of the embedded row.
* A pandas DataFrame batch is a `List` of rows; boolean-mask filtering is
  `List.filter`.
-/

/-- The two taxi categories, i.e. the two `TaxiDataUploader` subclasses. -/
inductive Category where
  | yellow
  | green
deriving DecidableEq

/-- A raw input row, as read from one parquet row group, restricted to the
columns the verified claims mention.  `Option` marks columns whose cells may be
missing and that the code passes through `fillna`/`map`. -/
structure RawRow where
  passenger_count : Option ℚ
  RatecodeID : Option ℚ
  store_and_fwd_flag : Option String
  trip_distance : ℚ
  fare_amount : ℚ
  tip_amount : ℚ
  total_amount : ℚ
  pickup_s : ℚ
  dropoff_s : ℚ
deriving DecidableEq

/-- A transformed row.  `store_and_fwd_flag` stays `Option Bool` because the
green transformer can leave a missing value in that column (see `transformRow`). -/
structure CleanRow where
  passenger_count : ℚ
  RatecodeID : ℚ
  store_and_fwd_flag : Option Bool
  trip_distance : ℚ
  fare_amount : ℚ
  tip_amount : ℚ
  total_amount : ℚ
  trip_duration_minutes : ℚ
  tip_percentage : ℚ
  avg_speed_mph : ℚ
deriving DecidableEq

/-- `pd.Series.map({'Y': True, 'N': False})` on one cell: anything other than
the two codes maps to missing (`NaN`). -/
def mapYN (s : String) : Option Bool :=
  if s = "Y" then some true else if s = "N" then some false else none

/-- `np.clip(x, lo, hi)` on rationals. -/
def clampQ (lo hi x : ℚ) : ℚ := min hi (max lo x)

/-- One row of `transform_batch` before the quality filter, for the given
category.

Yellow (`YellowTaxiUploader.transform_batch`):
`df['store_and_fwd_flag'].map({'Y': True, 'N': False}).fillna(False)` —
map first, then default missing/unmapped to `False`.

Green (`GreenTaxiUploader.transform_batch`):
`df['store_and_fwd_flag'].fillna('N').map({'Y': True, 'N': False})` —
default missing to `'N'` first, then map; a present-but-unmapped code
therefore becomes missing again.

Both: `passenger_count.fillna(1)`, `RatecodeID.fillna(1)`,
`trip_duration_minutes = (dropoff - pickup).total_seconds() / 60`,
`tip_percentage = np.where(fare > 0, tip/fare*100, 0.0).clip(0, 100)`,
`avg_speed_mph = np.where(dur > 0, dist/(dur/60), 0.0).clip(0, 100)`. -/
def transformRow (cat : Category) (r : RawRow) : CleanRow :=
  let dur : ℚ := (r.dropoff_s - r.pickup_s) / 60
  { passenger_count := r.passenger_count.getD 1
    RatecodeID := r.RatecodeID.getD 1
    store_and_fwd_flag :=
      match cat with
      | Category.yellow => some ((r.store_and_fwd_flag.bind mapYN).getD false)
      | Category.green => mapYN (r.store_and_fwd_flag.getD "N")
    trip_distance := r.trip_distance
    fare_amount := r.fare_amount
    tip_amount := r.tip_amount
    total_amount := r.total_amount
    trip_duration_minutes := dur
    tip_percentage :=
      clampQ 0 100 (if 0 < r.fare_amount then r.tip_amount / r.fare_amount * 100 else 0)
    avg_speed_mph :=
      clampQ 0 100 (if 0 < dur then r.trip_distance / (dur / 60) else 0) }

/-- The data-quality boolean mask of `transform_batch` (identical in both
categories): `distance > 0 & distance < 200 & duration > 0.5 & duration <= 480
& fare > 0 & fare < 1000 & total > 0 & total < 1000`. -/
def qualityPred (r : CleanRow) : Bool :=
  decide (0 < r.trip_distance ∧ r.trip_distance < 200 ∧
    1/2 < r.trip_duration_minutes ∧ r.trip_duration_minutes ≤ 480 ∧
    0 < r.fare_amount ∧ r.fare_amount < 1000 ∧
    0 < r.total_amount ∧ r.total_amount < 1000)

/-- Result of `transform_batch` on one batch: the accepted rows plus the
`initial_rows` / `len(df)` counts the method logs and the caller observes. -/
structure TransformOut where
  accepted : List CleanRow
  rows_in : Nat
  rows_out : Nat
deriving DecidableEq

/-- `transform_batch` for either category: per-row cleaning followed by the
boolean-mask quality filter. -/
def transform_batch (cat : Category) (rows : List RawRow) : TransformOut :=
  let accepted := (rows.map (transformRow cat)).filter qualityPred
  ⟨accepted, rows.length, accepted.length⟩

/-- The accepted rows `upload_file` receives back from `transform_batch`. -/
def acceptedRows (cat : Category) (rows : List RawRow) : List CleanRow :=
  (transform_batch cat rows).accepted

/-! ## The per-file load loop (`upload_file`) and the run driver (`upload_all_files`)

`upload_file` iterates the row-group generator, transforms each batch, and
inserts every non-empty transformed batch, inside one `try/except` that turns
any exception into an error record carrying the partial `rows_uploaded`.
We model the environment's behaviour for one file as a `List BatchOutcome`:
what happens at each pull of the generator, and whether `insert_df` would
raise for that batch. -/

/-- The environment's behaviour at one step of `process_parquet_in_batches`:
either the row group is read successfully (`insertFail` says whether a later
`insert_df` call on this batch would raise, and with which message), or
`transform_batch` raises on the batch, or the generator itself raises. -/
inductive BatchOutcome where
  | ok (rows : List RawRow) (insertFail : Option String)
  | transformError (rows : List RawRow) (msg : String)
  | readError (msg : String)
deriving DecidableEq

/-- Observable side effects of a run, in order: reading one row group,
transforming it, inserting an accepted batch into the destination table. -/
inductive Event where
  | read (file : String) (idx : Nat)
  | transform (file : String) (idx : Nat)
  | insert (file : String) (idx : Nat) (rows : Nat)
deriving DecidableEq

/-- The batch index an event belongs to. -/
def Event.idx : Event → Nat
  | Event.read _ i => i
  | Event.transform _ i => i
  | Event.insert _ i _ => i

/-- The dict `upload_file` returns: the success record holds the keys
`rows_processed`, `rows_uploaded`, `rows_filtered`, `batches_processed`; the
error record holds only `error` and the partial `rows_uploaded`. -/
inductive FileResult where
  | ok (file : String) (rows_processed rows_uploaded rows_filtered batches_processed : Nat)
  | err (file : String) (error : String) (rows_uploaded : Nat)
deriving DecidableEq

/-- `'error' in r` for a result dict. -/
def FileResult.isErr : FileResult → Bool
  | FileResult.ok _ _ _ _ _ => false
  | FileResult.err _ _ _ => true

/-- `r['rows_uploaded']` (present in both record shapes). -/
def FileResult.uploaded : FileResult → Nat
  | FileResult.ok _ _ u _ _ => u
  | FileResult.err _ _ u => u

/-- `r['rows_processed']` (present only in the success record). -/
def FileResult.processed : FileResult → Nat
  | FileResult.ok _ p _ _ _ => p
  | FileResult.err _ _ _ => 0

/-- `r['rows_filtered']` (present only in the success record). -/
def FileResult.filtered : FileResult → Nat
  | FileResult.ok _ _ _ flt _ => flt
  | FileResult.err _ _ _ => 0

/-- The body of `upload_file`'s `for batch in ...` loop, carrying the loop
accumulators `total_processed`, `total_uploaded`, `batch_count` and the batch
index; returns the result dict together with the trace of side effects. -/
def uploadFileGo (cat : Category) (f : String) :
    Nat → Nat → Nat → Nat → List BatchOutcome → FileResult × List Event
  | _, processed, uploaded, batches, [] =>
      (FileResult.ok f processed uploaded (processed - uploaded) batches, [])
  | _, _, uploaded, _, BatchOutcome.readError msg :: _ =>
      (FileResult.err f msg uploaded, [])
  | i, _, uploaded, _, BatchOutcome.transformError _ msg :: _ =>
      (FileResult.err f msg uploaded, [Event.read f i])
  | i, processed, uploaded, batches, BatchOutcome.ok rows insertFail :: rest =>
      let accepted := acceptedRows cat rows
      if 0 < accepted.length then
        match insertFail with
        | none =>
            let next := uploadFileGo cat f (i + 1) (processed + rows.length)
              (uploaded + accepted.length) (batches + 1) rest
            (next.1, Event.read f i :: Event.transform f i ::
              Event.insert f i accepted.length :: next.2)
        | some msg =>
            (FileResult.err f msg uploaded, [Event.read f i, Event.transform f i])
      else
        let next := uploadFileGo cat f (i + 1) (processed + rows.length) uploaded batches rest
        (next.1, Event.read f i :: Event.transform f i :: next.2)

/-- `upload_file` on one file, given the environment's per-batch behaviour. -/
def upload_file (cat : Category) (f : String) (outs : List BatchOutcome) :
    FileResult × List Event :=
  uploadFileGo cat f 0 0 0 0 outs

/-- How `upload_all_files` ends: no files matched the glob, the destination
table verification query raised, or the run completed with one result dict per
file. -/
inductive RunOutcome where
  | noFiles
  | tableMissing
  | completed (results : List FileResult)
deriving DecidableEq

/-- `upload_all_files`: empty match set returns early; then the table
verification query runs and a failure returns early; otherwise
`results = [self.upload_file(f) for f in parquet_files]` and the summary is
displayed.  `tableOk` is whether `SELECT 1 FROM table LIMIT 1` succeeds. -/
def upload_all_files (cat : Category) (tableOk : Bool)
    (files : List (String × List BatchOutcome)) : RunOutcome × List Event :=
  if files.isEmpty then (RunOutcome.noFiles, [])
  else if tableOk then
    let per := files.map fun p => upload_file cat p.1 p.2
    (RunOutcome.completed (per.map Prod.fst), (per.map Prod.snd).flatten)
  else (RunOutcome.tableMissing, [])

/-- `display_summary`'s `total_rows_uploaded`: summed over results without an
`'error'` key only. -/
def totalRowsUploaded (results : List FileResult) : Nat :=
  ((results.filter fun r => !r.isErr).map FileResult.uploaded).sum

/-- `display_summary`'s `total_rows_processed`: summed over results without an
`'error'` key only. -/
def totalRowsProcessed (results : List FileResult) : Nat :=
  ((results.filter fun r => !r.isErr).map FileResult.processed).sum

/-- `display_summary`'s printed total of filtered rows:
`total_rows_processed - total_rows_uploaded`. -/
def totalRowsFiltered (results : List FileResult) : Nat :=
  totalRowsProcessed results - totalRowsUploaded results

/-- The per-file `rows_uploaded` summed over all results, error records
included — what the run totals would be if error-state files contributed
their partial counts. -/
def sumAllUploaded (results : List FileResult) : Nat :=
  (results.map FileResult.uploaded).sum

/-! ## Column reconciliation

`transform_batch` reconciles column names with
`df.columns = [column_mappings.get(col, col) for col in df.columns]`. -/

/-- Yellow `column_mappings`, as `dict.get(col, col)`: the function each column
name is sent through. -/
def yellowColumnMap (c : String) : String :=
  if c = "tpep_pickup_datetime" then "tpep_pickup_datetime"
  else if c = "tpep_dropoff_datetime" then "tpep_dropoff_datetime"
  else if c = "Airport_fee" then "Airport_fee"
  else if c = "airport_fee" then "Airport_fee"
  else if c = "Congestion_Surcharge" then "congestion_surcharge"
  else if c = "congestion_surcharge" then "congestion_surcharge"
  else if c = "RatecodeID" then "RatecodeID"
  else if c = "Ratecodeid" then "RatecodeID"
  else if c = "store_and_fwd_flag" then "store_and_fwd_flag"
  else c

/-- Green `column_mappings`, as `dict.get(col, col)`. -/
def greenColumnMap (c : String) : String :=
  if c = "lpep_pickup_datetime" then "lpep_pickup_datetime"
  else if c = "lpep_dropoff_datetime" then "lpep_dropoff_datetime"
  else if c = "congestion_surcharge" then "congestion_surcharge"
  else if c = "RatecodeID" then "RatecodeID"
  else if c = "Ratecodeid" then "RatecodeID"
  else if c = "store_and_fwd_flag" then "store_and_fwd_flag"
  else c

/-- The per-category alias-to-canonical-name mapping. -/
def columnMap : Category → String → String
  | Category.yellow => yellowColumnMap
  | Category.green => greenColumnMap

/-- The column-reconciliation step applied to a whole column-name list. -/
def reconcileColumns (cat : Category) (cols : List String) : List String :=
  cols.map (columnMap cat)

/-! ## Per-outcome bookkeeping used to state the metrics claims -/

/-- `len(batch)` as counted into `total_processed` (a batch read successfully
contributes its length even if transforming it later raises; a failed read
contributes nothing). -/
def BatchOutcome.rowCount : BatchOutcome → Nat
  | BatchOutcome.ok rows _ => rows.length
  | BatchOutcome.transformError rows _ => rows.length
  | BatchOutcome.readError _ => 0

/-- Rows a batch contributes to `total_uploaded` once its insertion succeeds. -/
def upCount (cat : Category) : BatchOutcome → Nat
  | BatchOutcome.ok rows _ => (acceptedRows cat rows).length
  | _ => 0

/-- Whether the transformed batch is non-empty (`len(transformed_batch) > 0`). -/
def nonemptyBatch (cat : Category) : BatchOutcome → Bool
  | BatchOutcome.ok rows _ => !(acceptedRows cat rows).isEmpty
  | _ => false

/-- An outcome that raises no exception in `upload_file`'s loop body: the read
succeeds, the transform succeeds, and either the insert succeeds or it is never
attempted because the transformed batch is empty. -/
def goodOutcome (cat : Category) : BatchOutcome → Bool
  | BatchOutcome.ok _ none => true
  | BatchOutcome.ok rows (some _) => (acceptedRows cat rows).isEmpty
  | _ => false

/-- The exception message, if any, that processing this outcome raises. -/
def failsWith (cat : Category) : BatchOutcome → Option String
  | BatchOutcome.readError m => some m
  | BatchOutcome.transformError _ m => some m
  | BatchOutcome.ok rows (some m) =>
      if (acceptedRows cat rows).isEmpty then none else some m
  | BatchOutcome.ok _ none => none

/-! ## Concrete sample rows used by witnesses and counterexamples -/

/-- A row passing every quality predicate (distance 5, 10 min, fare 20,
tip 2, total 25). -/
def rowGood : RawRow :=
  { passenger_count := some 1, RatecodeID := none, store_and_fwd_flag := some "Y",
    trip_distance := 5, fare_amount := 20, tip_amount := 2, total_amount := 25,
    pickup_s := 0, dropoff_s := 600 }

/-- A row rejected by the quality filter (`trip_distance = 0`). -/
def rowBadDist : RawRow :=
  { passenger_count := none, RatecodeID := none, store_and_fwd_flag := none,
    trip_distance := 0, fare_amount := 20, tip_amount := 0, total_amount := 25,
    pickup_s := 0, dropoff_s := 600 }

/-- A row with `fare_amount = 0` and zero trip duration. -/
def rowZero : RawRow :=
  { passenger_count := none, RatecodeID := none, store_and_fwd_flag := none,
    trip_distance := 5, fare_amount := 0, tip_amount := 2, total_amount := 25,
    pickup_s := 0, dropoff_s := 0 }

/-- A row whose `store_and_fwd_flag` is present but neither `'Y'` nor `'N'`. -/
def rowFlagX : RawRow :=
  { passenger_count := none, RatecodeID := none, store_and_fwd_flag := some "X",
    trip_distance := 5, fare_amount := 20, tip_amount := 2, total_amount := 25,
    pickup_s := 0, dropoff_s := 600 }

/-- The yellow transform of `rowGood`. -/
def cleanGoodYellow : CleanRow :=
  { passenger_count := 1, RatecodeID := 1, store_and_fwd_flag := some true,
    trip_distance := 5, fare_amount := 20, tip_amount := 2, total_amount := 25,
    trip_duration_minutes := 10, tip_percentage := 10, avg_speed_mph := 30 }

/-! ## Helper lemmas -/

/-- The boolean quality mask unfolded to its eight range predicates. -/
theorem qualityPred_iff (c : CleanRow) :
    qualityPred c = true ↔
      (0 < c.trip_distance ∧ c.trip_distance < 200 ∧
       1/2 < c.trip_duration_minutes ∧ c.trip_duration_minutes ≤ 480 ∧
       0 < c.fare_amount ∧ c.fare_amount < 1000 ∧
       0 < c.total_amount ∧ c.total_amount < 1000) := by
  simp [qualityPred]

/-- Pointwise idempotence of the per-category column-name mapping: every value
the mapping produces is a fixed point of the mapping. -/
theorem columnMap_idem (cat : Category) (c : String) :
    columnMap cat (columnMap cat c) = columnMap cat c := by
  cases cat
  · show yellowColumnMap (yellowColumnMap c) = yellowColumnMap c
    by_cases h1 : c = "tpep_pickup_datetime"
    · subst h1; rfl
    by_cases h2 : c = "tpep_dropoff_datetime"
    · subst h2; rfl
    by_cases h3 : c = "Airport_fee"
    · subst h3; rfl
    by_cases h4 : c = "airport_fee"
    · subst h4; rfl
    by_cases h5 : c = "Congestion_Surcharge"
    · subst h5; rfl
    by_cases h6 : c = "congestion_surcharge"
    · subst h6; rfl
    by_cases h7 : c = "RatecodeID"
    · subst h7; rfl
    by_cases h8 : c = "Ratecodeid"
    · subst h8; rfl
    by_cases h9 : c = "store_and_fwd_flag"
    · subst h9; rfl
    have hc : yellowColumnMap c = c := by
      simp only [yellowColumnMap, if_neg h1, if_neg h2, if_neg h3, if_neg h4, if_neg h5,
        if_neg h6, if_neg h7, if_neg h8, if_neg h9]
    rw [hc, hc]
  · show greenColumnMap (greenColumnMap c) = greenColumnMap c
    by_cases h1 : c = "lpep_pickup_datetime"
    · subst h1; rfl
    by_cases h2 : c = "lpep_dropoff_datetime"
    · subst h2; rfl
    by_cases h3 : c = "congestion_surcharge"
    · subst h3; rfl
    by_cases h4 : c = "RatecodeID"
    · subst h4; rfl
    by_cases h5 : c = "Ratecodeid"
    · subst h5; rfl
    by_cases h6 : c = "store_and_fwd_flag"
    · subst h6; rfl
    have hc : greenColumnMap c = c := by
      simp only [greenColumnMap, if_neg h1, if_neg h2, if_neg h3, if_neg h4, if_neg h5,
        if_neg h6]
    rw [hc, hc]

/-! ## Claim theorems -/

/-- C8: column reconciliation is idempotent — for either category, sending a
column-name list through the alias-to-canonical mapping twice yields the same
names as sending it through once. -/
theorem column_reconciliation_idempotent (cat : Category) (cols : List String) :
    reconcileColumns cat (reconcileColumns cat cols) = reconcileColumns cat cols := by
  unfold reconcileColumns
  rw [List.map_map]
  refine List.map_congr_left ?_
  intro c _
  exact columnMap_idem cat c

/-- C3: for every transformed batch of either category, the quality filter
retains exactly the rows satisfying the eight conjunctive range predicates;
`rows_out ≤ rows_in`, and `rows_in - rows_out` is the number of cleaned rows
failing at least one predicate. -/
theorem quality_filter_characterization (cat : Category) (rows : List RawRow) :
    (∀ c, c ∈ (transform_batch cat rows).accepted ↔
        c ∈ rows.map (transformRow cat) ∧
        (0 < c.trip_distance ∧ c.trip_distance < 200 ∧
         1/2 < c.trip_duration_minutes ∧ c.trip_duration_minutes ≤ 480 ∧
         0 < c.fare_amount ∧ c.fare_amount < 1000 ∧
         0 < c.total_amount ∧ c.total_amount < 1000)) ∧
    (transform_batch cat rows).rows_out ≤ (transform_batch cat rows).rows_in ∧
    (transform_batch cat rows).rows_in - (transform_batch cat rows).rows_out =
      (rows.map (transformRow cat)).countP fun c =>
        decide ¬(0 < c.trip_distance ∧ c.trip_distance < 200 ∧
         1/2 < c.trip_duration_minutes ∧ c.trip_duration_minutes ≤ 480 ∧
         0 < c.fare_amount ∧ c.fare_amount < 1000 ∧
         0 < c.total_amount ∧ c.total_amount < 1000) := by
  refine ⟨?_, ?_, ?_⟩
  · intro c
    rw [show (transform_batch cat rows).accepted
        = (rows.map (transformRow cat)).filter qualityPred from rfl]
    rw [List.mem_filter, qualityPred_iff]
  · show ((rows.map (transformRow cat)).filter qualityPred).length ≤ rows.length
    calc ((rows.map (transformRow cat)).filter qualityPred).length
        ≤ (rows.map (transformRow cat)).length := List.length_filter_le _ _
      _ = rows.length := List.length_map _ _
  · show rows.length - ((rows.map (transformRow cat)).filter qualityPred).length = _
    have hlen := List.length_eq_countP_add_countP qualityPred (rows.map (transformRow cat))
    have hfil := List.countP_eq_length_filter qualityPred (rows.map (transformRow cat))
    have hmap : (rows.map (transformRow cat)).length = rows.length := List.length_map _ _
    have hcong : ((rows.map (transformRow cat)).countP fun c =>
        decide ¬(0 < c.trip_distance ∧ c.trip_distance < 200 ∧
         1/2 < c.trip_duration_minutes ∧ c.trip_duration_minutes ≤ 480 ∧
         0 < c.fare_amount ∧ c.fare_amount < 1000 ∧
         0 < c.total_amount ∧ c.total_amount < 1000)) =
        (rows.map (transformRow cat)).countP fun a => decide ¬(qualityPred a = true) := by
      refine List.countP_congr ?_
      intro c _
      simp [qualityPred_iff]
    rw [hcong]
    omega

/-- C10: the quality filter preserves row order and content — the accepted
batch is a subsequence of the cleaned pre-filter rows, each accepted row
satisfies the mask unchanged, and it is the unique such subsequence containing
every mask-satisfying position. -/
theorem quality_filter_subsequence (cat : Category) (rows : List RawRow) :
    ((transform_batch cat rows).accepted).Sublist (rows.map (transformRow cat)) ∧
    (∀ c ∈ (transform_batch cat rows).accepted, qualityPred c = true) ∧
    ∀ sub : List CleanRow, sub.Sublist (rows.map (transformRow cat)) →
      (∀ c ∈ sub, qualityPred c = true) →
      sub.length = (rows.map (transformRow cat)).countP qualityPred →
      sub = (transform_batch cat rows).accepted := by
  have hacc : (transform_batch cat rows).accepted
      = (rows.map (transformRow cat)).filter qualityPred := rfl
  refine ⟨?_, ?_, ?_⟩
  · rw [hacc]; exact List.filter_sublist _
  · intro c hc
    rw [hacc] at hc
    exact (List.mem_filter.mp hc).2
  · intro sub hsub hall hlen
    have h1 : sub.filter qualityPred = sub := List.filter_eq_self.mpr hall
    have h2 := List.Sublist.filter qualityPred hsub
    rw [h1] at h2
    rw [hacc]
    refine h2.eq_of_length ?_
    rw [hlen, List.countP_eq_length_filter]

/-- Witness for C10: on the concrete two-row batch `[rowGood, rowBadDist]`,
the singleton `[cleanGoodYellow]` satisfies the uniqueness hypotheses and is
therefore the accepted batch. -/
theorem quality_filter_subsequence_witness :
    [cleanGoodYellow] = (transform_batch Category.yellow [rowGood, rowBadDist]).accepted := by
  have hmap : [rowGood, rowBadDist].map (transformRow Category.yellow)
      = [cleanGoodYellow, transformRow Category.yellow rowBadDist] := by
    norm_num [transformRow, rowGood, cleanGoodYellow, clampQ, mapYN]
  refine (quality_filter_subsequence Category.yellow [rowGood, rowBadDist]).2.2
    [cleanGoodYellow] ?_ ?_ ?_
  · rw [hmap]
    exact (List.nil_sublist _).cons₂ _
  · intro c hc
    rw [List.mem_singleton] at hc
    subst hc
    norm_num [qualityPred, cleanGoodYellow]
  · rw [hmap]
    norm_num [List.countP_cons, List.countP_nil, qualityPred, cleanGoodYellow,
      transformRow, rowBadDist, clampQ, mapYN]

/-- C4: the derived `tip_percentage` and `avg_speed_mph` lie in `[0, 100]` for
every transformed row of either category; a zero fare yields tip percentage 0
and a zero trip duration yields average speed 0 (the guarded `np.where`
branches avoid any division fault). -/
theorem derived_field_bounds (cat : Category) (r : RawRow) :
    0 ≤ (transformRow cat r).tip_percentage ∧
    (transformRow cat r).tip_percentage ≤ 100 ∧
    0 ≤ (transformRow cat r).avg_speed_mph ∧
    (transformRow cat r).avg_speed_mph ≤ 100 ∧
    (r.fare_amount = 0 → (transformRow cat r).tip_percentage = 0) ∧
    ((transformRow cat r).trip_duration_minutes = 0 →
      (transformRow cat r).avg_speed_mph = 0) := by
  have htip : (transformRow cat r).tip_percentage
      = clampQ 0 100 (if 0 < r.fare_amount then r.tip_amount / r.fare_amount * 100 else 0) :=
    rfl
  have hspd : (transformRow cat r).avg_speed_mph
      = clampQ 0 100 (if 0 < (r.dropoff_s - r.pickup_s) / 60 then
          r.trip_distance / ((r.dropoff_s - r.pickup_s) / 60 / 60) else 0) := rfl
  have hdur : (transformRow cat r).trip_duration_minutes
      = (r.dropoff_s - r.pickup_s) / 60 := rfl
  have hlo : ∀ x : ℚ, 0 ≤ clampQ 0 100 x := by
    intro x
    exact le_min (by norm_num) (le_max_left 0 x)
  have hhi : ∀ x : ℚ, clampQ 0 100 x ≤ 100 := fun x => min_le_left 100 (max 0 x)
  refine ⟨htip ▸ hlo _, htip ▸ hhi _, hspd ▸ hlo _, hspd ▸ hhi _, ?_, ?_⟩
  · intro hf
    rw [htip, hf]
    norm_num [clampQ]
  · intro hd
    rw [hdur] at hd
    rw [hspd, hd]
    norm_num [clampQ]

/-- Witness for C4: the concrete `rowZero` (fare 0, dropoff = pickup) gets tip
percentage 0 and average speed 0. -/
theorem derived_field_bounds_witness :
    (transformRow Category.yellow rowZero).tip_percentage = 0 ∧
    (transformRow Category.yellow rowZero).avg_speed_mph = 0 :=
  ⟨(derived_field_bounds Category.yellow rowZero).2.2.2.2.1 rfl,
   (derived_field_bounds Category.yellow rowZero).2.2.2.2.2 (by
      norm_num [transformRow, rowZero])⟩

/-- Counterexample for C2: a green-category row whose `store_and_fwd_flag` is
present but is neither `'Y'` nor `'N'` is transformed to a *missing* flag, not
to `false` — `fillna('N')` runs before `map`, so the unmapped code becomes
`NaN` again and nothing fills it. -/
theorem flag_green_unmapped_counterexample :
    (transformRow Category.green rowFlagX).store_and_fwd_flag = none ∧
    (transformRow Category.green rowFlagX).store_and_fwd_flag ≠ some false := by
  have h0 : (transformRow Category.green rowFlagX).store_and_fwd_flag = none := rfl
  refine ⟨h0, ?_⟩
  rw [h0]
  intro h
  cases h

/-- C2 (amended): both categories map `'Y'` to `true`; the yellow transformer
maps a missing or unmapped flag to `false`; the green transformer maps a
missing flag or `'N'` to `false`, but leaves a present unmapped code missing. -/
theorem flag_mapping_amended (r : RawRow) :
    ((transformRow Category.yellow r).store_and_fwd_flag = some true ↔
      r.store_and_fwd_flag = some "Y") ∧
    (r.store_and_fwd_flag ≠ some "Y" →
      (transformRow Category.yellow r).store_and_fwd_flag = some false) ∧
    ((transformRow Category.green r).store_and_fwd_flag = some true ↔
      r.store_and_fwd_flag = some "Y") ∧
    (r.store_and_fwd_flag = none ∨ r.store_and_fwd_flag = some "N" →
      (transformRow Category.green r).store_and_fwd_flag = some false) ∧
    (∀ s, r.store_and_fwd_flag = some s → s ≠ "Y" → s ≠ "N" →
      (transformRow Category.green r).store_and_fwd_flag = none) := by
  have hy : (transformRow Category.yellow r).store_and_fwd_flag
      = some ((r.store_and_fwd_flag.bind mapYN).getD false) := rfl
  have hg : (transformRow Category.green r).store_and_fwd_flag
      = mapYN (r.store_and_fwd_flag.getD "N") := rfl
  rcases hr : r.store_and_fwd_flag with _ | s
  · simp [hy, hg, hr, mapYN]
  · by_cases hsy : s = "Y"
    · subst hsy
      simp [hy, hg, hr, mapYN]
    · by_cases hsn : s = "N"
      · subst hsn
        simp [hy, hg, hr, mapYN]
      · simp [hy, hg, hr, mapYN, hsy, hsn]

/-- Witness for C2 (amended): yellow sends the unmapped code `'X'` to `false`;
green sends a missing flag to `false`. -/
theorem flag_mapping_amended_witness :
    (transformRow Category.yellow rowFlagX).store_and_fwd_flag = some false ∧
    (transformRow Category.green rowBadDist).store_and_fwd_flag = some false :=
  ⟨(flag_mapping_amended rowFlagX).2.1 (by simp [rowFlagX]),
   (flag_mapping_amended rowBadDist).2.2.2.1 (Or.inl rfl)⟩

/-- A transformed batch never has more rows than its input batch. -/
theorem acceptedRows_length_le (cat : Category) (rows : List RawRow) :
    (acceptedRows cat rows).length ≤ rows.length := by
  unfold acceptedRows transform_batch
  calc ((rows.map (transformRow cat)).filter qualityPred).length
      ≤ (rows.map (transformRow cat)).length := List.length_filter_le _ _
    _ = rows.length := List.length_map _ _

/-- Loop invariant of `upload_file`: whenever the loop returns a success
record, `rows_uploaded ≤ rows_processed` and
`rows_filtered = rows_processed - rows_uploaded`. -/
theorem uploadFileGo_ok_inv (cat : Category) (f : String) (outs : List BatchOutcome) :
    ∀ (i p u b : Nat), u ≤ p →
      ∀ f' p' u' flt b',
        (uploadFileGo cat f i p u b outs).1 = FileResult.ok f' p' u' flt b' →
        u' ≤ p' ∧ flt = p' - u' := by
  induction outs with
  | nil =>
      intro i p u b hup f' p' u' flt b' h
      simp only [uploadFileGo] at h
      cases h
      exact ⟨hup, rfl⟩
  | cons o rest ih =>
      intro i p u b hup f' p' u' flt b' h
      cases o with
      | readError msg => simp [uploadFileGo] at h
      | transformError rows msg => simp [uploadFileGo] at h
      | ok rows insertFail =>
          have hacc := acceptedRows_length_le cat rows
          by_cases hA : 0 < (acceptedRows cat rows).length
          · cases insertFail with
            | none =>
                simp only [uploadFileGo, if_pos hA] at h
                exact ih (i + 1) (p + rows.length) (u + (acceptedRows cat rows).length)
                  (b + 1) (by omega) f' p' u' flt b' h
            | some msg => simp [uploadFileGo, if_pos hA] at h
          · simp only [uploadFileGo, if_neg hA] at h
            exact ih (i + 1) (p + rows.length) u b (by omega) f' p' u' flt b' h

/-- When every batch outcome is exception-free, the loop returns a success
record whose counters are the accumulated sums: every read batch counts into
`rows_processed`, only accepted rows count into `rows_uploaded`, and only
batches with a non-empty transformed result count into `batches_processed`. -/
theorem uploadFileGo_success (cat : Category) (f : String) (outs : List BatchOutcome) :
    ∀ i p u b, (∀ x ∈ outs, goodOutcome cat x = true) →
      (uploadFileGo cat f i p u b outs).1 =
        FileResult.ok f (p + (outs.map BatchOutcome.rowCount).sum)
          (u + (outs.map (upCount cat)).sum)
          ((p + (outs.map BatchOutcome.rowCount).sum) -
            (u + (outs.map (upCount cat)).sum))
          (b + outs.countP (nonemptyBatch cat)) := by
  induction outs with
  | nil =>
      intro i p u b _
      simp [uploadFileGo]
  | cons o rest ih =>
      intro i p u b hgood
      have hgood0 : goodOutcome cat o = true := hgood o (List.mem_cons_self o rest)
      have hgoodr : ∀ x ∈ rest, goodOutcome cat x = true := by
        intro x hx
        exact hgood x (List.mem_cons_of_mem o hx)
      cases o with
      | readError msg => simp [goodOutcome] at hgood0
      | transformError rows msg => simp [goodOutcome] at hgood0
      | ok rows insertFail =>
          by_cases hA : 0 < (acceptedRows cat rows).length
          · have heq : (acceptedRows cat rows).isEmpty = false := by
              rcases hl : acceptedRows cat rows with _ | ⟨a, l⟩
              · rw [hl] at hA; simp at hA
              · rfl
            cases insertFail with
            | none =>
                simp only [uploadFileGo, if_pos hA]
                rw [ih (i + 1) (p + rows.length) (u + (acceptedRows cat rows).length)
                  (b + 1) hgoodr]
                simp [List.countP_cons, BatchOutcome.rowCount, upCount, nonemptyBatch,
                  heq, FileResult.ok.injEq]
                omega
            | some msg =>
                exfalso
                simp only [goodOutcome] at hgood0
                rw [heq] at hgood0
                exact Bool.noConfusion hgood0
          · have hz : (acceptedRows cat rows).length = 0 := by omega
            have hem : (acceptedRows cat rows).isEmpty = true := by
              rcases hl : acceptedRows cat rows with _ | ⟨a, l⟩
              · rfl
              · rw [hl] at hz; simp at hz
            simp only [uploadFileGo, if_neg hA]
            rw [ih (i + 1) (p + rows.length) u b hgoodr]
            simp [List.countP_cons, BatchOutcome.rowCount, upCount, nonemptyBatch,
              hem, hz, FileResult.ok.injEq]
            omega

/-- When a prefix of outcomes is exception-free and the next outcome raises
with message `msg`, the loop returns the error record with that message and
with exactly the rows uploaded by the prefix, regardless of what would follow. -/
theorem uploadFileGo_err (cat : Category) (f : String) (bad : BatchOutcome)
    (rest : List BatchOutcome) (msg : String) (hbad : failsWith cat bad = some msg) :
    ∀ (pre : List BatchOutcome) i p u b, (∀ x ∈ pre, goodOutcome cat x = true) →
      (uploadFileGo cat f i p u b (pre ++ bad :: rest)).1 =
        FileResult.err f msg (u + (pre.map (upCount cat)).sum) := by
  intro pre
  induction pre with
  | nil =>
      intro i p u b _
      cases bad with
      | readError m =>
          simp only [failsWith, Option.some.injEq] at hbad
          subst hbad
          simp [uploadFileGo]
      | transformError rows m =>
          simp only [failsWith, Option.some.injEq] at hbad
          subst hbad
          simp [uploadFileGo]
      | ok rows insertFail =>
          cases insertFail with
          | none => simp [failsWith] at hbad
          | some m =>
              simp only [failsWith] at hbad
              by_cases hem : (acceptedRows cat rows).isEmpty = true
              · rw [if_pos hem] at hbad
                cases hbad
              · rw [if_neg hem] at hbad
                cases hbad
                have hA : 0 < (acceptedRows cat rows).length := by
                  rcases hl : acceptedRows cat rows with _ | ⟨a, l⟩
                  · rw [hl] at hem; simp at hem
                  · simp
                simp [uploadFileGo, if_pos hA]
  | cons o pre' ih =>
      intro i p u b hgood
      have hgood0 : goodOutcome cat o = true := hgood o (List.mem_cons_self o pre')
      have hgoodr : ∀ x ∈ pre', goodOutcome cat x = true := by
        intro x hx
        exact hgood x (List.mem_cons_of_mem o hx)
      cases o with
      | readError m => simp [goodOutcome] at hgood0
      | transformError rows m => simp [goodOutcome] at hgood0
      | ok rows insertFail =>
          by_cases hA : 0 < (acceptedRows cat rows).length
          · have heq : (acceptedRows cat rows).isEmpty = false := by
              rcases hl : acceptedRows cat rows with _ | ⟨a, l⟩
              · rw [hl] at hA; simp at hA
              · rfl
            cases insertFail with
            | none =>
                simp only [List.cons_append, uploadFileGo, if_pos hA, List.append_eq]
                rw [ih (i + 1) (p + rows.length) (u + (acceptedRows cat rows).length)
                  (b + 1) hgoodr]
                simp [upCount, FileResult.err.injEq]
                omega
            | some m =>
                exfalso
                simp only [goodOutcome] at hgood0
                rw [heq] at hgood0
                exact Bool.noConfusion hgood0
          · have hz : (acceptedRows cat rows).length = 0 := by omega
            simp only [List.cons_append, uploadFileGo, if_neg hA, List.append_eq]
            rw [ih (i + 1) (p + rows.length) u b hgoodr]
            simp [upCount, FileResult.err.injEq, hz]

/-- Every event the loop emits from batch index `i` onwards belongs to batch
index at least `i`, and the emitted batch indices are non-decreasing along the
trace. -/
theorem uploadFileGo_trace_sorted (cat : Category) (f : String) (outs : List BatchOutcome) :
    ∀ i p u b,
      (∀ e ∈ (uploadFileGo cat f i p u b outs).2, i ≤ Event.idx e) ∧
      List.Pairwise (fun e e' => Event.idx e ≤ Event.idx e')
        (uploadFileGo cat f i p u b outs).2 := by
  induction outs with
  | nil =>
      intro i p u b
      simp [uploadFileGo]
  | cons o rest ih =>
      intro i p u b
      cases o with
      | readError msg => simp [uploadFileGo]
      | transformError rows msg => simp [uploadFileGo, Event.idx]
      | ok rows insertFail =>
          by_cases hA : 0 < (acceptedRows cat rows).length
          · cases insertFail with
            | none =>
                have hmem := (ih (i + 1) (p + rows.length)
                  (u + (acceptedRows cat rows).length) (b + 1)).1
                have hpw := (ih (i + 1) (p + rows.length)
                  (u + (acceptedRows cat rows).length) (b + 1)).2
                have htl : ∀ e ∈ (uploadFileGo cat f (i + 1) (p + rows.length)
                    (u + (acceptedRows cat rows).length) (b + 1) rest).2,
                    i ≤ Event.idx e := by
                  intro e he
                  exact le_trans (Nat.le_succ i) (hmem e he)
                simp only [uploadFileGo, if_pos hA]
                constructor
                · intro e he
                  rcases List.mem_cons.mp he with rfl | he
                  · exact le_refl i
                  rcases List.mem_cons.mp he with rfl | he
                  · exact le_refl i
                  rcases List.mem_cons.mp he with rfl | he
                  · exact le_refl i
                  exact htl e he
                · refine List.pairwise_cons.mpr ⟨?_, List.pairwise_cons.mpr ⟨?_,
                    List.pairwise_cons.mpr ⟨?_, hpw⟩⟩⟩
                  · intro e he
                    rcases List.mem_cons.mp he with rfl | he
                    · exact le_refl i
                    rcases List.mem_cons.mp he with rfl | he
                    · exact le_refl i
                    exact htl e he
                  · intro e he
                    rcases List.mem_cons.mp he with rfl | he
                    · exact le_refl i
                    exact htl e he
                  · intro e he
                    exact htl e he
            | some msg =>
                simp [uploadFileGo, if_pos hA, Event.idx]
          · have hmem := (ih (i + 1) (p + rows.length) u b).1
            have hpw := (ih (i + 1) (p + rows.length) u b).2
            have htl : ∀ e ∈ (uploadFileGo cat f (i + 1) (p + rows.length) u b rest).2,
                i ≤ Event.idx e := by
              intro e he
              exact le_trans (Nat.le_succ i) (hmem e he)
            simp only [uploadFileGo, if_neg hA]
            constructor
            · intro e he
              rcases List.mem_cons.mp he with rfl | he
              · exact le_refl i
              rcases List.mem_cons.mp he with rfl | he
              · exact le_refl i
              exact htl e he
            · refine List.pairwise_cons.mpr ⟨?_, List.pairwise_cons.mpr ⟨?_, hpw⟩⟩
              · intro e he
                rcases List.mem_cons.mp he with rfl | he
                · exact le_refl i
                exact htl e he
              · intro e he
                exact htl e he

/-- Characterization of insert events: an insertion for batch index `j` is
emitted exactly from a successfully read batch at position `j - i` whose
transformed result is non-empty, and it inserts exactly the accepted rows. -/
theorem uploadFileGo_insert_mem (cat : Category) (f : String) (outs : List BatchOutcome) :
    ∀ i p u b f' j n,
      Event.insert f' j n ∈ (uploadFileGo cat f i p u b outs).2 →
      f' = f ∧ ∃ k rows ifail, outs[k]? = some (BatchOutcome.ok rows ifail) ∧
        j = i + k ∧ acceptedRows cat rows ≠ [] ∧ n = (acceptedRows cat rows).length := by
  induction outs with
  | nil =>
      intro i p u b f' j n h
      simp [uploadFileGo] at h
  | cons o rest ih =>
      intro i p u b f' j n h
      cases o with
      | readError msg => simp [uploadFileGo] at h
      | transformError rows msg => simp [uploadFileGo] at h
      | ok rows insertFail =>
          by_cases hA : 0 < (acceptedRows cat rows).length
          · cases insertFail with
            | none =>
                simp only [uploadFileGo, if_pos hA, List.mem_cons] at h
                rcases h with h | h | h | h
                · cases h
                · cases h
                · cases h
                  refine ⟨rfl, 0, rows, none, by simp, by omega, ?_, rfl⟩
                  intro hnil
                  rw [hnil] at hA
                  simp at hA
                · obtain ⟨hf, k, rows', ifail', hout, hj, hne, hn⟩ :=
                    ih (i + 1) (p + rows.length) (u + (acceptedRows cat rows).length)
                      (b + 1) f' j n h
                  exact ⟨hf, k + 1, rows', ifail', by simpa using hout, by omega, hne, hn⟩
            | some msg =>
                simp only [uploadFileGo, if_pos hA, List.mem_cons] at h
                rcases h with h | h | h
                · cases h
                · cases h
                · simp at h
          · simp only [uploadFileGo, if_neg hA, List.mem_cons] at h
            rcases h with h | h | h
            · cases h
            · cases h
            · obtain ⟨hf, k, rows', ifail', hout, hj, hne, hn⟩ :=
                ih (i + 1) (p + rows.length) u b f' j n h
              exact ⟨hf, k + 1, rows', ifail', by simpa using hout, by omega, hne, hn⟩

/-- C7: during `upload_file`, the insertion of an accepted batch happens
before the next batch is read (batch indices along the event trace are
ordered); an insert event exists only for a batch whose transformed result
is non-empty and inserts exactly its accepted rows; and a batch whose
transformed result is empty generates no insert call at all. -/
theorem insertion_ordering (cat : Category) (f : String) (outs : List BatchOutcome) :
    (∀ (a b j n : Nat),
      ((upload_file cat f outs).2)[a]? = some (Event.insert f j n) →
      ((upload_file cat f outs).2)[b]? = some (Event.read f (j + 1)) →
      a < b) ∧
    (∀ (j n : Nat), Event.insert f j n ∈ (upload_file cat f outs).2 →
      ∃ rows ifail, outs[j]? = some (BatchOutcome.ok rows ifail) ∧
        acceptedRows cat rows ≠ [] ∧ n = (acceptedRows cat rows).length) ∧
    (∀ (j : Nat) rows ifail, outs[j]? = some (BatchOutcome.ok rows ifail) →
      acceptedRows cat rows = [] → ∀ (n : Nat), Event.insert f j n ∉ (upload_file cat f outs).2) := by
  have hsorted := (uploadFileGo_trace_sorted cat f outs 0 0 0 0).2
  refine ⟨?_, ?_, ?_⟩
  · intro a b j n ha hb
    simp only [upload_file] at ha hb
    obtain ⟨hal, hae⟩ := List.getElem?_eq_some.mp ha
    obtain ⟨hbl, hbe⟩ := List.getElem?_eq_some.mp hb
    by_contra hab
    push_neg at hab
    rcases Nat.lt_or_ge b a with hba | hba
    · have hle := (List.pairwise_iff_getElem.mp hsorted) b a hbl hal hba
      rw [hae, hbe] at hle
      simp [Event.idx] at hle
    · have hab2 : a = b := by omega
      subst hab2
      rw [hae] at hbe
      simp at hbe
  · intro j n h
    simp only [upload_file] at h
    obtain ⟨hf, k, rows, ifail, hout, hj, hne, hn⟩ :=
      uploadFileGo_insert_mem cat f outs 0 0 0 0 f j n h
    have hkj : k = j := by omega
    subst hkj
    exact ⟨rows, ifail, hout, hne, hn⟩
  · intro j rows ifail hout hemp n hmem
    simp only [upload_file] at hmem
    obtain ⟨hf, k, rows', ifail', hout', hj, hne, hn⟩ :=
      uploadFileGo_insert_mem cat f outs 0 0 0 0 f j n hmem
    have hkj : k = j := by omega
    subst hkj
    rw [hout] at hout'
    simp only [Option.some.injEq, BatchOutcome.ok.injEq] at hout'
    obtain ⟨hr, _⟩ := hout'
    rw [hr] at hemp
    exact hne hemp

/-- Witness for C7: the batch `[rowBadDist]` transforms to an empty accepted
batch, so the run on the one-batch file performs no insertion for batch 0. -/
theorem insertion_ordering_witness :
    Event.insert "f" 0 0 ∉
      (upload_file Category.yellow "f" [BatchOutcome.ok [rowBadDist] none]).2 :=
  (insertion_ordering Category.yellow "f" [BatchOutcome.ok [rowBadDist] none]).2.2
    0 [rowBadDist] none (by simp)
    (by norm_num [acceptedRows, transform_batch, transformRow, qualityPred, clampQ,
      mapYN, rowBadDist, List.filter]) 0

/-- C9: in a successful run of `upload_file`, `batches_processed` counts only
the batches whose transformed result was non-empty, while `rows_processed`
still counts every row read (a fully rejected row group is counted into
`rows_processed` but not into `batches_processed`). -/
theorem batches_processed_counts_nonempty (cat : Category) (f : String)
    (outs : List BatchOutcome) (hgood : ∀ x ∈ outs, goodOutcome cat x = true) :
    (upload_file cat f outs).1 =
      FileResult.ok f ((outs.map BatchOutcome.rowCount).sum)
        ((outs.map (upCount cat)).sum)
        ((outs.map BatchOutcome.rowCount).sum - (outs.map (upCount cat)).sum)
        (outs.countP (nonemptyBatch cat)) := by
  have h := uploadFileGo_success cat f outs 0 0 0 0 hgood
  simpa [upload_file] using h

/-- Witness for C9: a file with one accepted batch and one fully rejected
batch reports 2 rows processed, 1 uploaded, 1 filtered, and exactly 1 batch
processed. -/
theorem batches_processed_counts_nonempty_witness :
    (upload_file Category.yellow "f"
      [BatchOutcome.ok [rowGood] none, BatchOutcome.ok [rowBadDist] none]).1 =
      FileResult.ok "f" 2 1 1 1 := by
  have h := batches_processed_counts_nonempty Category.yellow "f"
    [BatchOutcome.ok [rowGood] none, BatchOutcome.ok [rowBadDist] none]
    (by
      intro x hx
      simp only [List.mem_cons] at hx
      rcases hx with rfl | rfl | h <;> simp [goodOutcome] at *)
  rw [h]
  norm_num [BatchOutcome.rowCount, upCount, nonemptyBatch, acceptedRows,
    transform_batch, transformRow, qualityPred, clampQ, mapYN, rowGood, rowBadDist,
    List.countP_cons, List.filter]

/-- C5: an unhandled error while reading, transforming, or inserting turns the
file's result into an error record carrying the failure message and the rows
uploaded by the batches already inserted, and `upload_all_files` still yields
one result per file of the run. -/
theorem file_error_isolation (cat : Category) (f : String) (pre : List BatchOutcome)
    (bad : BatchOutcome) (rest : List BatchOutcome) (msg : String)
    (hpre : ∀ x ∈ pre, goodOutcome cat x = true)
    (hbad : failsWith cat bad = some msg) :
    (upload_file cat f (pre ++ bad :: rest)).1 =
      FileResult.err f msg ((pre.map (upCount cat)).sum) ∧
    ∀ (tableOk : Bool) files rs tr,
      upload_all_files cat tableOk files = (RunOutcome.completed rs, tr) →
      rs.length = files.length := by
  constructor
  · have h := uploadFileGo_err cat f bad rest msg hbad pre 0 0 0 0 hpre
    simpa [upload_file] using h
  · intro tableOk files rs tr h
    unfold upload_all_files at h
    by_cases hemp : files.isEmpty
    · rw [if_pos hemp] at h
      cases h
    · rw [if_neg hemp] at h
      cases tableOk with
      | false => simp at h
      | true =>
          rw [if_pos (rfl : (true : Bool) = true)] at h
          dsimp only at h
          injection h with h1 h2
          injection h1 with h1
          subst h1
          rw [List.length_map, List.length_map]

/-- Witness for C5: a read error on the second row group, after a first batch
of one accepted row was inserted, yields the error record with that message
and `rows_uploaded = 1`. -/
theorem file_error_isolation_witness :
    (upload_file Category.yellow "f"
      [BatchOutcome.ok [rowGood] none, BatchOutcome.readError "boom"]).1 =
      FileResult.err "f" "boom" 1 := by
  have h := (file_error_isolation Category.yellow "f" [BatchOutcome.ok [rowGood] none]
    (BatchOutcome.readError "boom") [] "boom"
    (by
      intro x hx
      simp only [List.mem_cons] at hx
      rcases hx with rfl | h <;> simp [goodOutcome] at *)
    rfl).1
  rw [show [BatchOutcome.ok [rowGood] none, BatchOutcome.readError "boom"]
      = [BatchOutcome.ok [rowGood] none] ++ BatchOutcome.readError "boom" :: [] from rfl]
  rw [h]
  norm_num [upCount, acceptedRows, transform_batch, transformRow, qualityPred, clampQ,
    mapYN, rowGood, List.filter]

/-- C6: if the destination-table verification query fails, `upload_all_files`
returns before processing any file — no result records and an empty side-effect
trace (nothing read, transformed, or inserted). -/
theorem table_check_aborts_run (cat : Category)
    (files : List (String × List BatchOutcome)) (h : files ≠ []) :
    upload_all_files cat false files = (RunOutcome.tableMissing, []) := by
  unfold upload_all_files
  rw [if_neg (by simpa [List.isEmpty_iff] using h)]
  simp

/-- Witness for C6: with one candidate file and a failing table check, the run
aborts with no events. -/
theorem table_check_aborts_run_witness :
    upload_all_files Category.yellow false [("f", [])] = (RunOutcome.tableMissing, []) :=
  table_check_aborts_run Category.yellow [("f", [])] (by simp)

/-- Splitting the all-files uploaded sum into the non-error part (what
`display_summary` reports) and the error part (what it leaves out). -/
theorem sum_uploaded_split (l : List FileResult) :
    sumAllUploaded l = totalRowsUploaded l +
      ((l.filter fun r => r.isErr).map FileResult.uploaded).sum := by
  induction l with
  | nil => simp [sumAllUploaded, totalRowsUploaded]
  | cons r l ih =>
      cases hr : r.isErr <;>
      · simp [sumAllUploaded, totalRowsUploaded, List.filter_cons, hr] at ih ⊢
        omega

/-- Summing `display_summary`'s totals over non-error records: if every
non-error record satisfies the per-file invariant, the subtraction-based
filtered total equals the sum of the per-file `rows_filtered` fields. -/
theorem totals_ok_filtered (l : List FileResult)
    (hinv : ∀ r ∈ l, r.isErr = false →
      r.uploaded ≤ r.processed ∧ r.filtered = r.processed - r.uploaded) :
    totalRowsUploaded l ≤ totalRowsProcessed l ∧
    totalRowsProcessed l - totalRowsUploaded l =
      ((l.filter fun r => !r.isErr).map FileResult.filtered).sum := by
  induction l with
  | nil => simp [totalRowsUploaded, totalRowsProcessed]
  | cons r l ih =>
      have ihh := ih fun x hx hh => hinv x (List.mem_cons_of_mem r hx) hh
      cases hr : r.isErr
      · obtain ⟨h1, h2⟩ := hinv r (List.mem_cons_self r l) hr
        simp only [totalRowsUploaded, totalRowsProcessed, List.filter_cons, hr,
          Bool.not_false, if_true, List.map_cons, List.sum_cons] at ihh ⊢
        omega
      · simp only [totalRowsUploaded, totalRowsProcessed, List.filter_cons, hr,
          Bool.not_true, if_false, Bool.false_eq_true] at ihh ⊢
        simpa using ihh

/-- The per-file invariant holds for every record `upload_file` produces. -/
theorem upload_file_result_inv (cat : Category) (f : String) (outs : List BatchOutcome) :
    (upload_file cat f outs).1.isErr = false →
    (upload_file cat f outs).1.uploaded ≤ (upload_file cat f outs).1.processed ∧
    (upload_file cat f outs).1.filtered =
      (upload_file cat f outs).1.processed - (upload_file cat f outs).1.uploaded := by
  intro h
  rcases hres : (upload_file cat f outs).1 with ⟨f', p', u', flt, b'⟩ | ⟨f', e, u'⟩
  · have hthis := uploadFileGo_ok_inv cat f outs 0 0 0 0 (le_refl 0) f' p' u' flt b'
      (by simpa [upload_file] using hres)
    simpa [FileResult.uploaded, FileResult.processed, FileResult.filtered] using hthis
  · rw [hres] at h
    exact Bool.noConfusion h

/-- C1 (amended): for every completed run, `display_summary`'s totals are the
sums of the per-file metrics over the files *not* in error state — error-state
files are excluded (their partial `rows_uploaded` stays only in their own
record) — and the subtraction-based filtered total equals the sum of the
per-file `rows_filtered` fields of the non-error files. -/
theorem run_summary_totals (cat : Category) (tableOk : Bool)
    (files : List (String × List BatchOutcome)) (rs : List FileResult) (tr : List Event)
    (h : upload_all_files cat tableOk files = (RunOutcome.completed rs, tr)) :
    sumAllUploaded rs = totalRowsUploaded rs +
      ((rs.filter fun r => r.isErr).map FileResult.uploaded).sum ∧
    totalRowsUploaded rs ≤ totalRowsProcessed rs ∧
    totalRowsFiltered rs = ((rs.filter fun r => !r.isErr).map FileResult.filtered).sum := by
  have hrs : ∀ r ∈ rs, ∃ fp outs, r = (upload_file cat fp outs).1 := by
    unfold upload_all_files at h
    by_cases hemp : files.isEmpty
    · rw [if_pos hemp] at h
      cases h
    · rw [if_neg hemp] at h
      cases tableOk with
      | false => simp at h
      | true =>
          rw [if_pos (rfl : (true : Bool) = true)] at h
          dsimp only at h
          injection h with h1 h2
          injection h1 with h1
          intro r hr
          rw [← h1] at hr
          simp only [List.map_map, List.mem_map, Function.comp] at hr
          obtain ⟨p, _, hpe⟩ := hr
          exact ⟨p.1, p.2, hpe.symm⟩
  have hinv : ∀ r ∈ rs, r.isErr = false →
      r.uploaded ≤ r.processed ∧ r.filtered = r.processed - r.uploaded := by
    intro r hr hne
    obtain ⟨fp, outs, rfl⟩ := hrs r hr
    exact upload_file_result_inv cat fp outs hne
  refine ⟨sum_uploaded_split rs, (totals_ok_filtered rs hinv).1, ?_⟩
  have h2 := (totals_ok_filtered rs hinv).2
  simpa [totalRowsFiltered] using h2

/-- Witness for C1 (amended): the one-file run on an empty file completes with
all totals zero. -/
theorem run_summary_totals_witness :
    sumAllUploaded [FileResult.ok "f1" 0 0 0 0] =
      totalRowsUploaded [FileResult.ok "f1" 0 0 0 0] +
      (([FileResult.ok "f1" 0 0 0 0].filter fun r => r.isErr).map FileResult.uploaded).sum ∧
    totalRowsUploaded [FileResult.ok "f1" 0 0 0 0] ≤
      totalRowsProcessed [FileResult.ok "f1" 0 0 0 0] ∧
    totalRowsFiltered [FileResult.ok "f1" 0 0 0 0] =
      (([FileResult.ok "f1" 0 0 0 0].filter fun r => !r.isErr).map
        FileResult.filtered).sum :=
  run_summary_totals Category.yellow true [("f1", [])] [FileResult.ok "f1" 0 0 0 0] [] rfl

/-- Counterexample for C1: in a run whose single file uploads one batch of one
row and then fails reading the next row group, the file's error record carries
the partial count `rows_uploaded = 1`, but `display_summary`'s totals — summed
only over results without an `'error'` key — are all `0`, not `1`. -/
theorem run_summary_error_counterexample :
    (upload_all_files Category.yellow true
      [("f1", [BatchOutcome.ok [rowGood] none, BatchOutcome.readError "boom"])]).1 =
      RunOutcome.completed [FileResult.err "f1" "boom" 1] ∧
    totalRowsUploaded [FileResult.err "f1" "boom" 1] = 0 ∧
    totalRowsProcessed [FileResult.err "f1" "boom" 1] = 0 ∧
    sumAllUploaded [FileResult.err "f1" "boom" 1] = 1 := by
  refine ⟨?_,
    by simp [totalRowsUploaded, FileResult.isErr],
    by simp [totalRowsProcessed, FileResult.isErr],
    by simp [sumAllUploaded, FileResult.uploaded]⟩
  norm_num [upload_all_files, upload_file, uploadFileGo, acceptedRows, transform_batch,
    transformRow, qualityPred, clampQ, mapYN, rowGood, List.filter]
